import Mathlib

/-!
Verification of the registration control plane (hub side controllers and
admission webhooks) against its design document.  Go sources are shallowly
embedded: pure decision logic becomes Lean functions, store interactions
become explicit inputs (listed resources, authorizer callbacks) and outputs
(patches, condition writes, delete actions).
-/

namespace Registration

/-- metav1.Condition restricted to the fields the controllers read and write. -/
structure Condition where
  type : String
  status : String
  reason : String
  message : String
deriving DecidableEq

/-- meta.FindStatusCondition: first condition whose Type matches. -/
def findStatusCondition (conds : List Condition) (t : String) : Option Condition :=
  conds.find? (fun c => c.type == t)

/-- clusterv1.Taint: key, value, effect and the timeAdded stamp.
timeAdded is unix seconds; 0 models the zero metav1.Time (IsZero). -/
structure Taint where
  key : String
  value : String
  effect : String
  timeAdded : Int
deriving DecidableEq

def TaintEffectNoSelect : String := "NoSelect"

def ManagedClusterTaintUnavailable : String := "cluster.open-cluster-management.io/unavailable"

def ManagedClusterTaintUnreachable : String := "cluster.open-cluster-management.io/unreachable"

/-- var UnavailableTaint in the taint controller. -/
def UnavailableTaint : Taint :=
  { key := ManagedClusterTaintUnavailable, value := "", effect := TaintEffectNoSelect, timeAdded := 0 }

/-- var UnreachableTaint in the taint controller. -/
def UnreachableTaint : Taint :=
  { key := ManagedClusterTaintUnreachable, value := "", effect := TaintEffectNoSelect, timeAdded := 0 }

/-- Modelled from the spec: the pkg/helpers taint helpers are not under src/.
Two taints are the same taint when key, value and effect agree; timeAdded is
not part of the identity (spec section 3, invariant iii). -/
def taintEq (a b : Taint) : Bool :=
  a.key == b.key && a.value == b.value && a.effect == b.effect

def hasTaint (taints : List Taint) (t : Taint) : Bool :=
  taints.any (fun x => taintEq x t)

/-- Modelled from the spec: helpers.AddTaints is not under src/.  Appends the
taint when no stored taint has the same key/value/effect; the Bool reports
whether the list changed. -/
def addTaints (taints : List Taint) (t : Taint) : List Taint × Bool :=
  if hasTaint taints t then (taints, false) else (taints ++ [t], true)

/-- Modelled from the spec: helpers.RemoveTaints is not under src/.  Removes
every stored taint matching one of the targets; the Bool reports whether the
list changed. -/
def removeTaints (taints : List Taint) (targets : List Taint) : List Taint × Bool :=
  let newTaints := taints.filter (fun v => !(targets.any (fun g => taintEq v g)))
  (newTaints, newTaints.length != taints.length)

/-- ManagedCluster restricted to the fields the hub controllers read. -/
structure ManagedCluster where
  name : String
  uid : String
  resourceVersion : String
  deletionTimestamp : Option Int
  finalizers : List String
  hubAcceptsClient : Bool
  labels : List (String × String)
  taints : List Taint
  conditions : List Condition
deriving DecidableEq

/-- Wire constant of the external cluster API (v1.ManagedClusterConditionAvailable). -/
def ManagedClusterConditionAvailable : String := "ManagedClusterConditionAvailable"

/-- Wire constant of the external cluster API (v1.ManagedClusterConditionHubAccepted). -/
def ManagedClusterConditionHubAccepted : String := "HubAcceptedManagedCluster"

/-- The merge patch the taint controller sends: metadata.uid and
metadata.resourceVersion are included so that they act as preconditions, and
spec.taints is replaced. -/
structure TaintsPatch where
  uid : String
  resourceVersion : String
  taints : List Taint
deriving DecidableEq

/-- The switch over the Available condition in taintController.sync: computes
the new taint list and whether it changed. -/
def computeTaints (taints : List Taint) (cond : Option Condition) : List Taint × Bool :=
  match cond with
  | none =>
    let r := removeTaints taints [UnavailableTaint]
    let a := addTaints r.1 UnreachableTaint
    (a.1, a.2 || r.2)
  | some c =>
    if c.status == "Unknown" then
      let r := removeTaints taints [UnavailableTaint]
      let a := addTaints r.1 UnreachableTaint
      (a.1, a.2 || r.2)
    else if c.status == "False" then
      let r := removeTaints taints [UnreachableTaint]
      let a := addTaints r.1 UnavailableTaint
      (a.1, a.2 || r.2)
    else if c.status == "True" then
      removeTaints taints [UnavailableTaint, UnreachableTaint]
    else (taints, false)

def availableCond (mc : ManagedCluster) : Option Condition :=
  findStatusCondition mc.conditions ManagedClusterConditionAvailable

/-- taintController.sync: clusters with a deletion timestamp are skipped; a
patch (with uid/resourceVersion preconditions) is issued only when the taint
list changed. -/
def taintControllerSync (mc : ManagedCluster) : Option TaintsPatch :=
  match mc.deletionTimestamp with
  | some _ => none
  | none =>
    let res := computeTaints mc.taints (availableCond mc)
    if res.2 then
      some { uid := mc.uid, resourceVersion := mc.resourceVersion, taints := res.1 }
    else none

/-- The taint list stored after one sync: the patched list when a patch was
issued, the unchanged stored list otherwise. -/
def taintsAfterSync (mc : ManagedCluster) : List Taint :=
  match taintControllerSync mc with
  | some p => p.taints
  | none => mc.taints

/-! Deletion controller (hub): finalizer install, multi-phase cleanup, finalizer release. -/

def managedClusterFinalizer : String := "cluster.open-cluster-management.io/api-resource-cleanup"

def DeletionByOtherLabelKey : String := "cluster.open-cluster-management.io/delete-by-other"

def ConditionTypeDeleteSuccess : String := "ContentDeleteSuccess"

def ResourceRemainReason : String := "ResourceRemaining"

def FinalizerRemainReason : String := "FinalizerRemaining"

/-- PartialObjectMetadata of a listed resource: the fields the deletion
controller reads. -/
structure ResourceMeta where
  name : String
  labels : List (String × String)
  finalizers : List String
deriving DecidableEq

def hasLabelKey (r : ResourceMeta) (k : String) : Bool :=
  r.labels.any (fun kv => kv.1 == k)

/-- The slice of the hub store the deletion controller lists: items already
scoped to the cluster namespace for the namespaced resources, plus the
cluster-scoped namespace objects. -/
structure HubStore where
  preDeleteMonitorItems : List (String × List ResourceMeta)
  addons : List ResourceMeta
  works : List ResourceMeta
  namespaces : List ResourceMeta
deriving DecidableEq

structure TotalRemainingResource where
  resource : String
  numRemainingResource : Nat
  numRemainingFinalizers : List (String × Nat)
deriving DecidableEq

def bumpCount (m : List (String × Nat)) (k : String) : List (String × Nat) :=
  match m with
  | [] => [(k, 1)]
  | (k0, n) :: rest => if k0 == k then (k0, n + 1) :: rest else (k0, n) :: bumpCount rest k

def countFinalizers (items : List ResourceMeta) : List (String × Nat) :=
  items.foldl (fun m r => r.finalizers.foldl bumpCount m) []

/-- monitorGVR: list the resource and summarise how many instances and which
finalizers remain. -/
def monitorGVR (gvr : String) (items : List ResourceMeta) : TotalRemainingResource :=
  if items.isEmpty then
    { resource := "", numRemainingResource := 0, numRemainingFinalizers := [] }
  else
    { resource := gvr, numRemainingResource := items.length,
      numRemainingFinalizers := countFinalizers items }

/-- A DeleteCollection call issued during cleanup, or the final RBAC manifest
removal. -/
inductive CleanupAction
  | deleteCollection (resource : String) (deletedItems : List ResourceMeta)
  | removeRBACResources
deriving DecidableEq

/-- cleanupGVR: monitor, then issue a foreground DeleteCollection when items
remain; the remaining summary reflects the pre-deletion list. -/
def cleanupGVR (gvr : String) (items : List ResourceMeta) :
    TotalRemainingResource × List CleanupAction :=
  let remaining := monitorGVR gvr items
  if remaining.numRemainingResource == 0 then (remaining, [])
  else (remaining, [CleanupAction.deleteCollection gvr items])

def monitorPreDelete : List (String × List ResourceMeta) → Option TotalRemainingResource
  | [] => none
  | (gvr, items) :: rest =>
    let r := monitorGVR gvr items
    if r.numRemainingResource > 0 then some r else monitorPreDelete rest

/-- managedClusterDeletionController.cleanup, with the control flow of the
source, including which remaining summary each early return propagates. -/
def cleanup (clusterName : String) (store : HubStore) :
    TotalRemainingResource × List CleanupAction :=
  match monitorPreDelete store.preDeleteMonitorItems with
  | some remaining => (remaining, [])
  | none =>
    let addonRes := cleanupGVR "managedclusteraddons" store.addons
    let remainingAddon := addonRes.1
    if remainingAddon.numRemainingResource > 0 then (remainingAddon, addonRes.2)
    else
      let filteredWorks := store.works.filter (fun r => !(hasLabelKey r DeletionByOtherLabelKey))
      let workRes := cleanupGVR "manifestworks" filteredWorks
      if workRes.1.numRemainingResource > 0 then (remainingAddon, addonRes.2 ++ workRes.2)
      else
        let remainingWorks2 := monitorGVR "manifestworks" store.works
        if remainingWorks2.numRemainingResource > 0 then (remainingAddon, addonRes.2 ++ workRes.2)
        else
          let nsItems := store.namespaces.filter
            (fun r => r.name == clusterName && !(hasLabelKey r DeletionByOtherLabelKey))
          let nsRes := cleanupGVR "namespaces" nsItems
          if nsRes.1.numRemainingResource > 0 then
            (nsRes.1, addonRes.2 ++ workRes.2 ++ nsRes.2)
          else
            ({ resource := "", numRemainingResource := 0, numRemainingFinalizers := [] },
             addonRes.2 ++ workRes.2 ++ nsRes.2 ++ [CleanupAction.removeRBACResources])

/-- The marshalled merge patch of patchFinalizer: a PartialObjectMetadata whose
only populated field is metadata.finalizers; uid and resourceVersion are zero
valued and omitted from the marshalled JSON. -/
structure FinalizerPatch where
  uid : Option String
  resourceVersion : Option String
  finalizers : List String
deriving DecidableEq

def patchFinalizer (finalizers : List String) : FinalizerPatch :=
  { uid := none, resourceVersion := none, finalizers := finalizers }

inductive DeletionSyncOutcome
  | noop
  | installFinalizerPatch (patch : FinalizerPatch)
  | conditionUpdate (cond : Condition)
  | finalizerRemovalPatch (patch : FinalizerPatch)
deriving DecidableEq

structure DeletionSyncResult where
  actions : List CleanupAction
  outcome : DeletionSyncOutcome
deriving DecidableEq

def insertSorted (s : String) : List String → List String
  | [] => [s]
  | x :: rest => if s < x then s :: x :: rest else x :: insertSorted s rest

def sortStrings (l : List String) : List String :=
  l.foldr insertSorted []

def remainingByFinalizerMessage (resource clusterName : String)
    (fins : List (String × Nat)) : String :=
  let parts := (fins.filter (fun p => p.2 != 0)).map
    (fun p => p.1 ++ " in " ++ toString p.2 ++ " resource instances")
  "resource " ++ resource ++ " for cluster " ++ clusterName ++ " has finalizers remaining: " ++
    String.intercalate ", " (sortStrings parts)

/-- managedClusterDeletionController.sync: installs the cleanup finalizer on
live clusters; for deleting clusters runs cleanup and either reports the
remaining content through a ContentDeleteSuccess=False condition or removes the
cleanup finalizer through a merge patch. -/
def deletionSync (mc : ManagedCluster) (store : HubStore) : DeletionSyncResult :=
  match mc.deletionTimestamp with
  | none =>
    if mc.finalizers.contains managedClusterFinalizer then
      { actions := [], outcome := DeletionSyncOutcome.noop }
    else
      { actions := [],
        outcome := DeletionSyncOutcome.installFinalizerPatch
          (patchFinalizer (mc.finalizers ++ [managedClusterFinalizer])) }
  | some _ =>
    let res := cleanup mc.name store
    let remaining := res.1
    if remaining.numRemainingFinalizers.length > 0 then
      { actions := res.2,
        outcome := DeletionSyncOutcome.conditionUpdate
          { type := ConditionTypeDeleteSuccess, status := "False",
            reason := FinalizerRemainReason,
            message := remainingByFinalizerMessage remaining.resource mc.name
              remaining.numRemainingFinalizers } }
    else if remaining.numRemainingResource > 0 then
      { actions := res.2,
        outcome := DeletionSyncOutcome.conditionUpdate
          { type := ConditionTypeDeleteSuccess, status := "False",
            reason := ResourceRemainReason,
            message := "resource " ++ remaining.resource ++ " for cluster " ++ mc.name ++
              " has " ++ toString remaining.numRemainingResource ++ " resource remaining" } }
    else
      let copiedFinalizers := mc.finalizers.filter (fun f => !(f == managedClusterFinalizer))
      if copiedFinalizers.length != mc.finalizers.length then
        { actions := res.2,
          outcome := DeletionSyncOutcome.finalizerRemovalPatch (patchFinalizer copiedFinalizers) }
      else { actions := res.2, outcome := DeletionSyncOutcome.noop }

/-- The items removed by the DeleteCollection calls of a sync. -/
def deletedItems (actions : List CleanupAction) : List ResourceMeta :=
  actions.foldr
    (fun a acc =>
      match a with
      | CleanupAction.deleteCollection _ items => items ++ acc
      | CleanupAction.removeRBACResources => acc) []

/-- S6 scenario input: a deleting cluster owning exactly one ManifestWork that
carries the delete-by-other opt-out label. -/
def optOutWork : ResourceMeta :=
  { name := "w1", labels := [(DeletionByOtherLabelKey, "true")], finalizers := [] }

def deletingCluster : ManagedCluster :=
  { name := "c1", uid := "uid-c1", resourceVersion := "42",
    deletionTimestamp := some 100, finalizers := [managedClusterFinalizer],
    hubAcceptsClient := true, labels := [], taints := [], conditions := [] }

def optOutStore : HubStore :=
  { preDeleteMonitorItems := [], addons := [], works := [optOutWork],
    namespaces := [{ name := "c1", labels := [], finalizers := [] }] }

/-- Store with nothing left to clean up. -/
def emptyStore : HubStore :=
  { preDeleteMonitorItems := [], addons := [], works := [], namespaces := [] }

/-- A live cluster that is not accepted and holds no conditions, lacking the
cleanup finalizer. -/
def liveUnacceptedCluster : ManagedCluster :=
  { name := "c2", uid := "uid-c2", resourceVersion := "1", deletionTimestamp := none,
    finalizers := ["other-finalizer"], hubAcceptsClient := false, labels := [],
    taints := [], conditions := [] }

/-! CSR approving controller (hub): renewal recognition and SAR-gated approval. -/

/-- The subject of a parsed PKCS#10 certificate request: the fields the
approver reads. -/
structure X509Subject where
  organization : List String
  commonName : String
deriving DecidableEq

/-- Outcome of pem.Decode plus x509.ParseCertificateRequest on spec.request:
either no PEM block, or a block of some type whose body may or may not parse
as a certificate request. -/
inductive CSRRequestParse
  | noPEMBlock
  | pemBlock (blockType : String) (parsed : Option X509Subject)
deriving DecidableEq

structure CSRCondition where
  type : String
  status : String
  reason : String
  message : String
deriving DecidableEq

structure CSRSpec where
  username : String
  signerName : String
  groups : List String
  request : CSRRequestParse
deriving DecidableEq

structure CSR where
  name : String
  labels : List (String × String)
  spec : CSRSpec
  conditions : List CSRCondition
deriving DecidableEq

def lookupLabel (labels : List (String × String)) (k : String) : Option String :=
  (labels.find? (fun kv => kv.1 == k)).map (fun kv => kv.2)

/-- Modelled from the spec: the csr package constant file is not under src/.
Label carrying the enrolling cluster name (spec section 6). -/
def spokeClusterNameLabel : String := "open-cluster-management.io/cluster-name"

/-- Wire constant certificatesv1beta1.KubeAPIServerClientSignerName. -/
def kubeAPIServerClientSignerName : String := "kubernetes.io/kube-apiserver-client"

/-- Modelled from the spec: pkg/hub/user is not under src/.  Subject
organization of a cluster agent is open-cluster-management:<clusterName>
(spec section 4.1). -/
def subjectOrgStart : String := "open-cluster-management:"

/-- Modelled from the spec: pkg/hub/user is not under src/.  Legacy common
organization open-cluster-management:managedclusters (spec section 4.1). -/
def managedClustersGroupName : String := "open-cluster-management:managedclusters"

/-- strings.HasPrefix, computed on the character list of the strings. -/
def strHasPre (p s : String) : Bool := p.data.isPrefixOf s.data

/-- The deduplicated subject organizations with the legacy common organization
discarded (sets.NewString followed by Delete of the legacy organization). -/
def requestingOrgsOf (subj : X509Subject) : List String :=
  (subj.organization.eraseDups).filter (fun o => !(o == managedClustersGroupName))

/-- isV1beta1SpokeClusterClientCertRenewal: label, signer, PEM block type,
parse, organization set (deduplicated, legacy organization discarded), CN
and username checks, in the order of the source. -/
def isV1beta1SpokeClusterClientCertRenewal (csr : CSR) : Bool :=
  match lookupLabel csr.labels spokeClusterNameLabel with
  | none => false
  | some spokeClusterName =>
    if !(csr.spec.signerName == kubeAPIServerClientSignerName) then false
    else match csr.spec.request with
      | CSRRequestParse.noPEMBlock => false
      | CSRRequestParse.pemBlock blockType parsed =>
        if !(blockType == "CERTIFICATE REQUEST") then false
        else match parsed with
          | none => false
          | some subj =>
            if !((requestingOrgsOf subj).length == 1) then false
            else if !((requestingOrgsOf subj).contains (subjectOrgStart ++ spokeClusterName)) then
              false
            else if !(strHasPre (subjectOrgStart ++ spokeClusterName) subj.commonName) then false
            else csr.spec.username == subj.commonName

/-- Modelled from the spec: helpers.Isv1beta1CSRInTerminalState is not under
src/.  A CSR already holding an Approved, Denied or Failed condition is
terminal (spec section 4.2, idempotence). -/
def isV1beta1CSRInTerminalState (conds : List CSRCondition) : Bool :=
  conds.any (fun c => c.type == "Approved" || c.type == "Denied" || c.type == "Failed")

/-- The resource attributes and user identity of a SubjectAccessReview
creation. -/
structure SARSpec where
  user : String
  groups : List String
  group : String
  resource : String
  subresource : String
  verb : String
  name : String
deriving DecidableEq

/-- Reply of the SubjectAccessReview create call: transport failure, or a
decision. -/
inductive SARReply
  | failure
  | allowed
  | denied
deriving DecidableEq

/-- The SAR built by v1beta1CSRApprovingController.authorize. -/
def renewClientCertSAR (csr : CSR) : SARSpec :=
  { user := csr.spec.username, groups := csr.spec.groups,
    group := "register.open-cluster-management.io", resource := "managedclusters",
    subresource := "clientcertificates", verb := "renew", name := "" }

/-- The condition appended on auto approval. -/
def approvedCondition : CSRCondition :=
  { type := "Approved", status := "True", reason := "AutoApprovedByHubCSRApprovingController",
    message := "Auto approving Managed cluster agent certificate after SubjectAccessReview." }

/-- Observable effects of one sync of the CSR approving controller. -/
structure CSRSyncResult where
  sarCreated : Option SARSpec
  approvalWrite : Option (List CSRCondition)
  errored : Bool
deriving DecidableEq

/-- v1beta1CSRApprovingController.sync: skip terminal CSRs, skip unrecognized
CSRs, authorize through a SubjectAccessReview, and only then update approval. -/
def csrSync (authorize : SARSpec → SARReply) (csr : CSR) : CSRSyncResult :=
  if isV1beta1CSRInTerminalState csr.conditions then
    { sarCreated := none, approvalWrite := none, errored := false }
  else if !(isV1beta1SpokeClusterClientCertRenewal csr) then
    { sarCreated := none, approvalWrite := none, errored := false }
  else
    match authorize (renewClientCertSAR csr) with
    | SARReply.failure =>
      { sarCreated := some (renewClientCertSAR csr), approvalWrite := none, errored := true }
    | SARReply.denied =>
      { sarCreated := some (renewClientCertSAR csr), approvalWrite := none, errored := false }
    | SARReply.allowed =>
      { sarCreated := some (renewClientCertSAR csr),
        approvalWrite := some (csr.conditions ++ [approvedCondition]), errored := false }

/-- Renewal recognition as the specification words it: the request parses as a
PEM block of type CERTIFICATE REQUEST holding a certificate request; after
discarding the legacy organization the subject holds exactly the one
organization open-cluster-management:<clusterName> named by the cluster-name
label; the CN is prefixed by that organization; spec.username equals the CN;
and the signer is the kube-apiserver client signer. -/
def renewalRecognitionSpec (csr : CSR) : Prop :=
  ∃ clusterName subj,
    lookupLabel csr.labels spokeClusterNameLabel = some clusterName ∧
    csr.spec.request = CSRRequestParse.pemBlock "CERTIFICATE REQUEST" (some subj) ∧
    requestingOrgsOf subj = [subjectOrgStart ++ clusterName] ∧
    strHasPre (subjectOrgStart ++ clusterName) subj.commonName = true ∧
    csr.spec.username = subj.commonName ∧
    csr.spec.signerName = kubeAPIServerClientSignerName

def hubAcceptedTrue (mc : ManagedCluster) : Bool :=
  match findStatusCondition mc.conditions ManagedClusterConditionHubAccepted with
  | some c => c.status == "True"
  | none => false

/-- A well-formed renewal CSR for cluster c1, pending and allowed by RBAC. -/
def renewalCSR : CSR :=
  { name := "csr-1",
    labels := [(spokeClusterNameLabel, "c1")],
    spec :=
      { username := "open-cluster-management:c1:agent1",
        signerName := kubeAPIServerClientSignerName,
        groups := ["open-cluster-management:c1"],
        request := CSRRequestParse.pemBlock "CERTIFICATE REQUEST"
          (some { organization := ["open-cluster-management:managedclusters",
                                   "open-cluster-management:c1"],
                  commonName := "open-cluster-management:c1:agent1" }) },
    conditions := [] }

def allowAllSAR : SARSpec → SARReply := fun _ => SARReply.allowed

def denyAllSAR : SARSpec → SARReply := fun _ => SARReply.denied

/-- A CSR already approved. -/
def terminalCSR : CSR :=
  { renewalCSR with conditions := [approvedCondition] }

/-! Mutating admission webhook (hub): taint timeAdded stamping. -/

/-- Modelled from the spec: helpers.FindTaintByKey is not under src/ (only its
test is).  First taint of the cluster whose key matches; none when the cluster
is absent. -/
def findTaintByKey (mc : Option ManagedCluster) (key : String) : Option Taint :=
  match mc with
  | none => none
  | some c => c.taints.find? (fun t => t.key == key)

/-- One JSON patch operation.  The webhook only ever emits replace operations
whose value is the RFC3339 rendering of a UTC time; valueSecondsUTC holds the
stamped time, standing for timeAdded.UTC().Format(time.RFC3339). -/
structure JsonPatchOperation where
  op : String
  path : String
  valueSecondsUTC : Int
deriving DecidableEq

def newTaintTimeAddedJsonPatch (index : Nat) (timeAdded : Int) : JsonPatchOperation :=
  { op := "replace", path := "/spec/taints/" ++ toString index ++ "/timeAdded",
    valueSecondsUTC := timeAdded }

/-- Outcome of an admission webhook decision: allowed with JSON patches, or a
failure status with an HTTP code and message. -/
inductive AdmissionResult
  | allowedPatches (patches : List JsonPatchOperation)
  | rejected (code : Nat) (message : String)
deriving DecidableEq

/-- The loop body of processTaints: walks the new taints with their indices,
collecting invalid taint keys and timeAdded patches in order. -/
def processTaintsAux (old : Option ManagedCluster) (now : Int) :
    Nat → List Taint → List String × List JsonPatchOperation
  | _, [] => ([], [])
  | index, taint :: rest =>
    let acc := processTaintsAux old now (index + 1) rest
    match findTaintByKey old taint.key with
    | none =>
      if !(taint.timeAdded == 0) then (taint.key :: acc.1, acc.2)
      else (acc.1, newTaintTimeAddedJsonPatch index now :: acc.2)
    | some originalTaint =>
      if originalTaint.value == taint.value && originalTaint.effect == taint.effect then
        if !(originalTaint.timeAdded == taint.timeAdded) then (taint.key :: acc.1, acc.2)
        else (acc.1, acc.2)
      else
        if !(taint.timeAdded == 0) then (taint.key :: acc.1, acc.2)
        else (acc.1, newTaintTimeAddedJsonPatch index now :: acc.2)

/-- ManagedClusterMutatingAdmissionHook.processTaints. -/
def processTaints (now : Int) (mc : ManagedCluster) (old : Option ManagedCluster) :
    AdmissionResult :=
  if mc.taints.isEmpty then AdmissionResult.allowedPatches []
  else
    let acc := processTaintsAux old now 0 mc.taints
    if acc.1.isEmpty then AdmissionResult.allowedPatches acc.2
    else
      AdmissionResult.rejected 400
        ("It is not allowed to set TimeAdded of Taint \"" ++
          String.intercalate "," acc.1 ++ "\".")

/-- A taint of the request violates the webhook contract when: it is new (no
key match in the old object) and carries timeAdded; or it is unchanged
(key, value and effect match) and its timeAdded differs from the stored one;
or it is changed (key matches, value or effect differ) and carries timeAdded. -/
def taintViolation (old : Option ManagedCluster) (t : Taint) : Bool :=
  match findTaintByKey old t.key with
  | none => !(t.timeAdded == 0)
  | some o =>
    if o.value == t.value && o.effect == t.effect then !(o.timeAdded == t.timeAdded)
    else !(t.timeAdded == 0)

/-- A taint of the request gets its timeAdded stamped when it is new or
changed, with timeAdded unset. -/
def taintNeedsStamp (old : Option ManagedCluster) (t : Taint) : Bool :=
  match findTaintByKey old t.key with
  | none => t.timeAdded == 0
  | some o => !(o.value == t.value && o.effect == t.effect) && t.timeAdded == 0

/-! Validating admission webhook (hub): label permission checks. -/

structure UserInfo where
  username : String
  groups : List String
deriving DecidableEq

def clusterSetLabel : String := "cluster.open-cluster-management.io/clusterset"

def internalClusterSetLabelKeyStart : String := "cluster.open-cluster-management.io/"

def infoClusterSetLabelKeyStart : String := "info.open-cluster-management.io/"

/-- filterRbacCheckLabels: keep only labels whose key starts with one of the
protected key spaces. -/
def filterRbacCheckLabels (labels : List (String × String)) : List (String × String) :=
  labels.filter (fun kv =>
    strHasPre internalClusterSetLabelKeyStart kv.1 || strHasPre infoClusterSetLabelKeyStart kv.1)

/-- getDiffLabels: labels deleted from the old set and labels added to the new
set; a value change appears on both sides. -/
def getDiffLabels (oldLabels newLabels : List (String × String)) :
    List (String × String) × List (String × String) :=
  if oldLabels.isEmpty then ([], newLabels)
  else if newLabels.isEmpty then (oldLabels, [])
  else
    (oldLabels.filter (fun kv => !(lookupLabel newLabels kv.1 == some kv.2)),
     newLabels.filter (fun kv => !(lookupLabel oldLabels kv.1 == some kv.2)))

/-- The managedclustersets/join SubjectAccessReview named by the label value. -/
def joinSAR (u : UserInfo) (clusterSetName : String) : SARSpec :=
  { user := u.username, groups := u.groups, group := "cluster.open-cluster-management.io",
    resource := "managedclustersets", subresource := "join", verb := "create",
    name := clusterSetName }

/-- The managedclusters/label SubjectAccessReview named by the given resource
name. -/
def labelSAR (u : UserInfo) (resourceName : String) : SARSpec :=
  { user := u.username, groups := u.groups, group := "cluster.open-cluster-management.io",
    resource := "managedclusters", subresource := "label", verb := "create",
    name := resourceName }

def forbiddenLabelMessage (username k v : String) : String :=
  "user \"" ++ username ++ "\" cannot add/remove the label " ++ k ++ ":" ++ v ++
    " to/from ManagedCluster"

/-- allowUpdateLabels: per label, try the join review (clusterset key only),
then label key:value, then label key:*; the first allowed review admits the
label; when every review is denied the webhook returns 403.  The returned list
records every SubjectAccessReview created, in order. -/
def allowUpdateLabels (auth : SARSpec → Bool) (u : UserInfo) :
    List (String × String) → List SARSpec × AdmissionResult
  | [] => ([], AdmissionResult.allowedPatches [])
  | (k, v) :: rest =>
    if k == clusterSetLabel && auth (joinSAR u v) then
      let r := allowUpdateLabels auth u rest
      (joinSAR u v :: r.1, r.2)
    else
      let headTrace := if k == clusterSetLabel then [joinSAR u v] else []
      if auth (labelSAR u (k ++ ":" ++ v)) then
        let r := allowUpdateLabels auth u rest
        (headTrace ++ labelSAR u (k ++ ":" ++ v) :: r.1, r.2)
      else if auth (labelSAR u (k ++ ":*")) then
        let r := allowUpdateLabels auth u rest
        (headTrace ++ labelSAR u (k ++ ":" ++ v) :: labelSAR u (k ++ ":*") :: r.1, r.2)
      else
        (headTrace ++ [labelSAR u (k ++ ":" ++ v), labelSAR u (k ++ ":*")],
         AdmissionResult.rejected 403 (forbiddenLabelMessage u.username k v))

/-- validUpdateLabelPermission: diff the labels, keep the protected ones, check
removals then additions. -/
def validUpdateLabelPermission (auth : SARSpec → Bool) (u : UserInfo)
    (oldLabels newLabels : List (String × String)) : List SARSpec × AdmissionResult :=
  let diff := getDiffLabels oldLabels newLabels
  let addRbacLabels := filterRbacCheckLabels diff.2
  let deleteRbacLabels := filterRbacCheckLabels diff.1
  if deleteRbacLabels.isEmpty && addRbacLabels.isEmpty then
    ([], AdmissionResult.allowedPatches [])
  else if deleteRbacLabels.isEmpty then allowUpdateLabels auth u addRbacLabels
  else if addRbacLabels.isEmpty then allowUpdateLabels auth u deleteRbacLabels
  else
    match allowUpdateLabels auth u deleteRbacLabels with
    | (tr, AdmissionResult.rejected code msg) => (tr, AdmissionResult.rejected code msg)
    | (tr, _) =>
      let addRes := allowUpdateLabels auth u addRbacLabels
      (tr ++ addRes.1, addRes.2)

/-- The ordered candidate reviews for one label: the join review when the key
is exactly the clusterset label, then label key:value, then label key:*. -/
def labelSARCandidates (u : UserInfo) (k v : String) : List SARSpec :=
  (if k == clusterSetLabel then [joinSAR u v] else []) ++
    [labelSAR u (k ++ ":" ++ v), labelSAR u (k ++ ":*")]

/-- The reviews actually issued: every candidate up to and including the first
allowed one. -/
def takeToFirstAllowed (auth : SARSpec → Bool) : List SARSpec → List SARSpec
  | [] => []
  | s :: rest => if auth s then [s] else s :: takeToFirstAllowed auth rest

/-! Addon lease controller (spoke): lease evaluation with customized opt-out. -/

structure AddOn where
  name : String
  namespaceName : String
  installNamespace : String
  healthCheckMode : String
  conditions : List Condition
deriving DecidableEq

structure Lease where
  renewTime : Int
deriving DecidableEq

def HealthCheckModeCustomized : String := "Customized"

def ManagedClusterAddOnConditionAvailable : String := "Available"

def leaseDurationTimes : Int := 5

def AddOnLeaseControllerLeaseDurationSeconds : Int := 60

/-- Modelled from the spec: getAddOnInstallationNamespace is not under src/.
The lease is read from spec.installNamespace; the conventional agent addon
namespace is used when it is empty (spec section 4.4). -/
def getAddOnInstallationNamespace (a : AddOn) : String :=
  if a.installNamespace == "" then "open-cluster-management-agent-addon"
  else a.installNamespace

/-- meta.IsStatusConditionPresentAndEqual on the first condition of the given
type. -/
def isStatusConditionPresentAndEqual (conds : List Condition) (t s : String) : Bool :=
  match findStatusCondition conds t with
  | some c => c.status == s
  | none => false

/-- Observable effects of one sync of the addon lease controller: the lease
Get calls issued, in order, and the condition written (none when the write is
skipped or never reached). -/
structure AddOnLeaseSyncResult where
  leaseReads : List (String × String)
  conditionWrite : Option Condition
deriving DecidableEq

def addOnAvailableTrue (a : AddOn) : Condition :=
  { type := ManagedClusterAddOnConditionAvailable, status := "True",
    reason := "ManagedClusterAddOnLeaseUpdated",
    message := a.name ++ " add-on is available." }

def addOnAvailableFalse (a : AddOn) : Condition :=
  { type := ManagedClusterAddOnConditionAvailable, status := "False",
    reason := "ManagedClusterAddOnLeaseUpdateStopped",
    message := a.name ++ " add-on is not available." }

def addOnAvailableUnknown (a : AddOn) : Condition :=
  { type := ManagedClusterAddOnConditionAvailable, status := "Unknown",
    reason := "ManagedClusterAddOnLeaseNotFound",
    message := "The status of " ++ a.name ++ " add-on is unknown." }

/-- The condition write at the end of syncAddOn: skipped when the present
condition already has the target status. -/
def addOnConditionWrite (a : AddOn) (cond : Condition) : Option Condition :=
  if isStatusConditionPresentAndEqual a.conditions cond.type cond.status then none
  else some cond

/-- addOnLeaseController.syncAddOn: read the addon lease from the chosen
namespace, fall back to the hub-side addon namespace, and derive the Available
condition from renewTime plus the grace period against now. -/
def addOnLeaseSyncAddOn (now : Int) (hubLease spokeLease : String → String → Option Lease)
    (leaseNamespace : String) (a : AddOn) : AddOnLeaseSyncResult :=
  let gracePeriod := leaseDurationTimes * AddOnLeaseControllerLeaseDurationSeconds
  match spokeLease leaseNamespace a.name with
  | some observedLease =>
    let condition :=
      if now < observedLease.renewTime + gracePeriod then addOnAvailableTrue a
      else addOnAvailableFalse a
    { leaseReads := [(leaseNamespace, a.name)],
      conditionWrite := addOnConditionWrite a condition }
  | none =>
    match hubLease a.namespaceName a.name with
    | some observedLease =>
      let condition :=
        if now < observedLease.renewTime + gracePeriod then addOnAvailableTrue a
        else addOnAvailableFalse a
      { leaseReads := [(leaseNamespace, a.name), (a.namespaceName, a.name)],
        conditionWrite := addOnConditionWrite a condition }
    | none =>
      { leaseReads := [(leaseNamespace, a.name), (a.namespaceName, a.name)],
        conditionWrite := addOnConditionWrite a (addOnAvailableUnknown a) }

/-- addOnLeaseController.sync: a missing addon is ignored, a Customized
health-check addon is left to its own manager, otherwise the lease is
evaluated. -/
def addOnLeaseSync (now : Int) (hubLease spokeLease : String → String → Option Lease)
    (addOn : Option AddOn) : AddOnLeaseSyncResult :=
  match addOn with
  | none => { leaseReads := [], conditionWrite := none }
  | some a =>
    if a.healthCheckMode == HealthCheckModeCustomized then
      { leaseReads := [], conditionWrite := none }
    else addOnLeaseSyncAddOn now hubLease spokeLease (getAddOnInstallationNamespace a) a

/-- Customized-mode addon used to witness C9. -/
def customizedAddOn : AddOn :=
  { name := "app-mgr", namespaceName := "c1", installNamespace := "ns1",
    healthCheckMode := "Customized", conditions := [] }

def noLeases : String → String → Option Lease := fun _ _ => none

/-- Concrete admission inputs for the webhook claims. -/
def webhookUser : UserInfo := { username := "u", groups := ["g1"] }

def denyAllAuth : SARSpec → Bool := fun _ => false

/-- Concrete cluster used to witness the taint truth table: no Available
condition, one unrelated taint. -/
def taintWitnessCluster : ManagedCluster :=
  { name := "c1", uid := "u1", resourceVersion := "7", deletionTimestamp := none,
    finalizers := [], hubAcceptsClient := true, labels := [],
    taints := [{ key := "a", value := "b", effect := "NoSelect", timeAdded := 3 }],
    conditions := [] }

end Registration

namespace Registration

lemma taintEq_self (t : Taint) : taintEq t t = true := by
  simp [taintEq]

lemma hasTaint_remove (ts targets : List Taint) (g : Taint) (hg : g ∈ targets) :
    hasTaint (removeTaints ts targets).1 g = false := by
  rw [Bool.eq_false_iff]
  intro h
  rcases List.any_eq_true.mp h with ⟨x, hx, hxg⟩
  rcases List.mem_filter.mp hx with ⟨_, hkeep⟩
  have hany : targets.any (fun g2 => taintEq x g2) = true :=
    List.any_eq_true.mpr ⟨g, hg, hxg⟩
  simp [hany] at hkeep

lemma hasTaint_add_self (ts : List Taint) (t : Taint) :
    hasTaint (addTaints ts t).1 t = true := by
  by_cases h : hasTaint ts t = true
  · simp [addTaints, h]
  · simp only [addTaints, if_neg h]
    refine List.any_eq_true.mpr ⟨t, ?_, taintEq_self t⟩
    exact List.mem_append_right ts (List.mem_singleton.mpr rfl)

lemma hasTaint_add_other (ts : List Taint) (t g : Taint)
    (habs : hasTaint ts g = false) (hne : taintEq t g = false) :
    hasTaint (addTaints ts t).1 g = false := by
  by_cases h : hasTaint ts t = true
  · simpa [addTaints, h] using habs
  · simp only [addTaints, if_neg h]
    rw [Bool.eq_false_iff]
    intro hc
    rcases List.any_eq_true.mp hc with ⟨x, hx, hxg⟩
    rcases List.mem_append.mp hx with hx1 | hx2
    · have : hasTaint ts g = true := List.any_eq_true.mpr ⟨x, hx1, hxg⟩
      rw [habs] at this; exact Bool.false_ne_true this
    · rw [List.mem_singleton.mp hx2] at hxg
      rw [hne] at hxg; exact Bool.false_ne_true hxg

lemma removeTaints_not_updated (ts targets : List Taint)
    (h : (removeTaints ts targets).1 = ts) : (removeTaints ts targets).2 = false := by
  have hlen : (removeTaints ts targets).1.length = ts.length := by rw [h]
  simp only [removeTaints] at hlen ⊢
  simp [hlen]

lemma removeAdd_not_updated (ts : List Taint) (a b : Taint) (hba : taintEq b a = false)
    (h : (addTaints (removeTaints ts [a]).1 b).1 = ts) :
    ((addTaints (removeTaints ts [a]).1 b).2 || (removeTaints ts [a]).2) = false := by
  by_cases hg : hasTaint (removeTaints ts [a]).1 b = true
  · -- nothing appended: the removal result equals ts, so nothing was removed
    simp only [addTaints, if_pos hg] at h ⊢
    simp [removeTaints_not_updated ts [a] h]
  · exfalso
    simp only [addTaints, if_neg hg] at h
    -- b is the last element of ts and it survives the removal filter
    have hbts : b ∈ ts := by
      rw [← h]; exact List.mem_append_right _ (List.mem_singleton.mpr rfl)
    have hbkeep : b ∈ (removeTaints ts [a]).1 := by
      simp only [removeTaints]
      refine List.mem_filter.mpr ⟨hbts, ?_⟩
      simp [hba]
    exact hg (List.any_eq_true.mpr ⟨b, hbkeep, taintEq_self b⟩)

lemma removeTaints_eq_of_not_updated (ts targets : List Taint)
    (h : (removeTaints ts targets).2 = false) : (removeTaints ts targets).1 = ts := by
  simp only [removeTaints] at h ⊢
  rw [bne_eq_false_iff_eq] at h
  exact List.filter_eq_self.mpr (List.filter_length_eq_length.mp h)

lemma computeTaints_eq_of_not_updated (ts : List Taint) (c : Option Condition)
    (h : (computeTaints ts c).2 = false) : (computeTaints ts c).1 = ts := by
  have hra : ∀ a b : Taint,
      ((addTaints (removeTaints ts [a]).1 b).2 || (removeTaints ts [a]).2) = false →
      (addTaints (removeTaints ts [a]).1 b).1 = ts := by
    intro a b hu
    rcases Bool.or_eq_false_iff.mp hu with ⟨hu2, hu1⟩
    have h1 := removeTaints_eq_of_not_updated ts [a] hu1
    by_cases hg : hasTaint (removeTaints ts [a]).1 b = true
    · rw [h1] at hg
      simp [addTaints, hg, h1]
    · simp [addTaints, if_neg hg] at hu2
  match c with
  | none => exact hra UnavailableTaint UnreachableTaint h
  | some cc =>
    simp only [computeTaints] at h ⊢
    by_cases hu : (cc.status == "Unknown") = true
    · simp only [if_pos hu] at h ⊢; exact hra UnavailableTaint UnreachableTaint h
    · simp only [if_neg hu] at h ⊢
      by_cases hf : (cc.status == "False") = true
      · simp only [if_pos hf] at h ⊢; exact hra UnreachableTaint UnavailableTaint h
      · simp only [if_neg hf] at h ⊢
        by_cases ht : (cc.status == "True") = true
        · simp only [if_pos ht] at h ⊢
          exact removeTaints_eq_of_not_updated ts [UnavailableTaint, UnreachableTaint] h
        · simp only [if_neg ht]

lemma computeTaints_none (ts : List Taint) :
    computeTaints ts none =
      ((addTaints (removeTaints ts [UnavailableTaint]).1 UnreachableTaint).1,
       (addTaints (removeTaints ts [UnavailableTaint]).1 UnreachableTaint).2 ||
         (removeTaints ts [UnavailableTaint]).2) := rfl

lemma computeTaints_unknown (ts : List Taint) (c : Condition) (hst : c.status = "Unknown") :
    computeTaints ts (some c) =
      ((addTaints (removeTaints ts [UnavailableTaint]).1 UnreachableTaint).1,
       (addTaints (removeTaints ts [UnavailableTaint]).1 UnreachableTaint).2 ||
         (removeTaints ts [UnavailableTaint]).2) := by
  simp only [computeTaints, hst]
  rfl

lemma computeTaints_false (ts : List Taint) (c : Condition) (hst : c.status = "False") :
    computeTaints ts (some c) =
      ((addTaints (removeTaints ts [UnreachableTaint]).1 UnavailableTaint).1,
       (addTaints (removeTaints ts [UnreachableTaint]).1 UnavailableTaint).2 ||
         (removeTaints ts [UnreachableTaint]).2) := by
  simp only [computeTaints, hst]
  rfl

lemma computeTaints_true (ts : List Taint) (c : Condition) (hst : c.status = "True") :
    computeTaints ts (some c) = removeTaints ts [UnavailableTaint, UnreachableTaint] := by
  simp only [computeTaints, hst]
  rfl

lemma computeTaints_not_updated_of_eq (ts : List Taint) (c : Option Condition)
    (h : (computeTaints ts c).1 = ts) : (computeTaints ts c).2 = false := by
  match c with
  | none =>
    rw [computeTaints_none] at h ⊢
    exact removeAdd_not_updated ts UnavailableTaint UnreachableTaint (by decide) h
  | some cc =>
    by_cases hu : cc.status = "Unknown"
    · rw [computeTaints_unknown ts cc hu] at h ⊢
      exact removeAdd_not_updated ts UnavailableTaint UnreachableTaint (by decide) h
    · by_cases hf : cc.status = "False"
      · rw [computeTaints_false ts cc hf] at h ⊢
        exact removeAdd_not_updated ts UnreachableTaint UnavailableTaint (by decide) h
      · by_cases ht : cc.status = "True"
        · rw [computeTaints_true ts cc ht] at h ⊢
          exact removeTaints_not_updated ts [UnavailableTaint, UnreachableTaint] h
        · simp only [computeTaints, if_neg (show ¬(cc.status == "Unknown") = true by simpa using hu),
            if_neg (show ¬(cc.status == "False") = true by simpa using hf),
            if_neg (show ¬(cc.status == "True") = true by simpa using ht)]

lemma taintsAfterSync_eq (mc : ManagedCluster) (h : mc.deletionTimestamp = none) :
    taintsAfterSync mc = (computeTaints mc.taints (availableCond mc)).1 := by
  simp only [taintsAfterSync, taintControllerSync, h]
  by_cases hu : (computeTaints mc.taints (availableCond mc)).2 = true
  · simp [hu]
  · simp only [if_neg hu]
    exact (computeTaints_eq_of_not_updated mc.taints (availableCond mc)
      (Bool.eq_false_iff.mpr hu)).symm

/-- C1: for every ManagedCluster with deletionTimestamp unset, one sync of the taint
controller makes spec.taints agree with the truth table over the Available condition:
if Available is missing or Unknown, the Unreachable/NoSelect taint is present and the
Unavailable/NoSelect taint is absent; if Available is False, Unavailable/NoSelect is
present and Unreachable/NoSelect is absent; if Available is True, neither is present;
and no patch is issued when the stored taint list already equals the computed one. -/
theorem C1_taint_truth_table (mc : ManagedCluster) (hdel : mc.deletionTimestamp = none) :
    ((availableCond mc = none ∨ ∃ c, availableCond mc = some c ∧ c.status = "Unknown") →
      hasTaint (taintsAfterSync mc) UnreachableTaint = true ∧
      hasTaint (taintsAfterSync mc) UnavailableTaint = false) ∧
    ((∃ c, availableCond mc = some c ∧ c.status = "False") →
      hasTaint (taintsAfterSync mc) UnavailableTaint = true ∧
      hasTaint (taintsAfterSync mc) UnreachableTaint = false) ∧
    ((∃ c, availableCond mc = some c ∧ c.status = "True") →
      hasTaint (taintsAfterSync mc) UnavailableTaint = false ∧
      hasTaint (taintsAfterSync mc) UnreachableTaint = false) ∧
    ((computeTaints mc.taints (availableCond mc)).1 = mc.taints →
      taintControllerSync mc = none) := by
  have hafter := taintsAfterSync_eq mc hdel
  refine ⟨?_, ?_, ?_, ?_⟩
  · rintro (hnone | ⟨c, hc, hst⟩)
    · rw [hafter, hnone, computeTaints_none]
      exact ⟨hasTaint_add_self _ _,
        hasTaint_add_other _ _ _
          (hasTaint_remove _ _ _ (List.mem_singleton.mpr rfl)) (by decide)⟩
    · rw [hafter, hc, computeTaints_unknown mc.taints c hst]
      exact ⟨hasTaint_add_self _ _,
        hasTaint_add_other _ _ _
          (hasTaint_remove _ _ _ (List.mem_singleton.mpr rfl)) (by decide)⟩
  · rintro ⟨c, hc, hst⟩
    rw [hafter, hc, computeTaints_false mc.taints c hst]
    exact ⟨hasTaint_add_self _ _,
      hasTaint_add_other _ _ _
        (hasTaint_remove _ _ _ (List.mem_singleton.mpr rfl)) (by decide)⟩
  · rintro ⟨c, hc, hst⟩
    rw [hafter, hc, computeTaints_true mc.taints c hst]
    exact ⟨hasTaint_remove _ _ _ (by simp), hasTaint_remove _ _ _ (by simp)⟩
  · intro heq
    simp only [taintControllerSync, hdel]
    simp [computeTaints_not_updated_of_eq mc.taints (availableCond mc) heq]

/-- C1 witness: the hypotheses of the truth-table theorem hold at a concrete live
cluster with no Available condition, and the sync adds the Unreachable taint. -/
theorem C1_taint_truth_table_witness :
    hasTaint (taintsAfterSync taintWitnessCluster) UnreachableTaint = true ∧
    hasTaint (taintsAfterSync taintWitnessCluster) UnavailableTaint = false := by
  have h := C1_taint_truth_table taintWitnessCluster rfl
  exact h.1 (Or.inl rfl)

/-- C10: the deletion controller installs the cleanup finalizer on every synced
ManagedCluster whose deletionTimestamp is unset and that lacks the finalizer,
for any store content and hence regardless of spec.hubAcceptsClient or of the
HubAccepted condition; the patched finalizer list carries the finalizer. -/
theorem C10_finalizer_installed_on_live_clusters (mc : ManagedCluster) (store : HubStore)
    (hdel : mc.deletionTimestamp = none)
    (hfin : mc.finalizers.contains managedClusterFinalizer = false) :
    (deletionSync mc store).outcome =
      DeletionSyncOutcome.installFinalizerPatch
        (patchFinalizer (mc.finalizers ++ [managedClusterFinalizer])) ∧
    managedClusterFinalizer ∈
      (patchFinalizer (mc.finalizers ++ [managedClusterFinalizer])).finalizers := by
  constructor
  · have hne : managedClusterFinalizer ∉ mc.finalizers := by simpa using hfin
    simp [deletionSync, hdel, hne]
  · simp [patchFinalizer]

/-- C10 witness: a live cluster with hubAcceptsClient=false, no conditions and a
foreign finalizer still gets the cleanup finalizer appended by one sync. -/
theorem C10_finalizer_installed_witness :
    (deletionSync liveUnacceptedCluster emptyStore).outcome =
      DeletionSyncOutcome.installFinalizerPatch
        (patchFinalizer (liveUnacceptedCluster.finalizers ++ [managedClusterFinalizer])) ∧
    managedClusterFinalizer ∈
      (patchFinalizer (liveUnacceptedCluster.finalizers ++ [managedClusterFinalizer])).finalizers :=
  C10_finalizer_installed_on_live_clusters liveUnacceptedCluster emptyStore rfl rfl

/-- C3: evaluation of the deletion sync at the S6 scenario (deleting cluster
owning exactly one ManifestWork labelled delete-by-other).  The sync deletes
nothing, but instead of writing ContentDeleteSuccess=False with reason
ResourceRemaining and keeping the finalizer, it removes the cleanup finalizer:
cleanup propagates the empty addon-phase summary instead of the manifestwork
monitor result that found the remaining work. -/
theorem C3_optout_deletion_eval :
    deletionSync deletingCluster optOutStore =
      { actions := [],
        outcome := DeletionSyncOutcome.finalizerRemovalPatch (patchFinalizer []) } ∧
    deletedItems (deletionSync deletingCluster optOutStore).actions = [] := by
  exact ⟨rfl, rfl⟩

/-- C8 counterexample: for a deleting cluster with nothing left to clean up, the
finalizer-removal patch the sync emits does not carry the uid of the cluster as
a precondition (nor any resourceVersion), refuting the claim at this input. -/
theorem C8_preconditions_counterexample :
    ¬ ∃ p : FinalizerPatch,
        (deletionSync deletingCluster emptyStore).outcome =
          DeletionSyncOutcome.finalizerRemovalPatch p ∧
        p.uid = some deletingCluster.uid ∧
        p.resourceVersion = some deletingCluster.resourceVersion := by
  rintro ⟨p, hp, hu, _⟩
  have heval : (deletionSync deletingCluster emptyStore).outcome =
      DeletionSyncOutcome.finalizerRemovalPatch (patchFinalizer []) := rfl
  rw [heval] at hp
  injection hp with h
  rw [← h] at hu
  simp [patchFinalizer] at hu

/-- C8 amended: when the cleanup phases are all empty the controller removes the
cleanup finalizer through a merge patch that contains only metadata.finalizers;
the patch carries no uid and no resourceVersion precondition, and the patched
list is the stored finalizer list with the cleanup finalizer filtered out. -/
theorem C8_finalizer_patch_has_no_preconditions (mc : ManagedCluster) (store : HubStore)
    (p : FinalizerPatch)
    (h : (deletionSync mc store).outcome = DeletionSyncOutcome.finalizerRemovalPatch p) :
    p.uid = none ∧ p.resourceVersion = none ∧
    p.finalizers = mc.finalizers.filter (fun f => !(f == managedClusterFinalizer)) := by
  rcases hdel : mc.deletionTimestamp with _ | t
  · simp only [deletionSync, hdel] at h
    split at h <;> simp at h
  · simp only [deletionSync, hdel] at h
    split at h
    · simp at h
    · split at h
      · simp at h
      · split at h
        · simp only at h
          injection h with h
          rw [← h]
          exact ⟨rfl, rfl, rfl⟩
        · simp at h

/-- C8 amended witness: concrete deleting cluster with an empty store; the
emitted patch has no preconditions and an empty finalizer list. -/
theorem C8_finalizer_patch_witness :
    (patchFinalizer []).uid = none ∧ (patchFinalizer []).resourceVersion = none ∧
    (patchFinalizer []).finalizers =
      deletingCluster.finalizers.filter (fun f => !(f == managedClusterFinalizer)) :=
  C8_finalizer_patch_has_no_preconditions deletingCluster emptyStore (patchFinalizer []) rfl

lemma not_bnot_true {b : Bool} (h : ¬(!b) = true) : b = true := by
  cases b
  · exact absurd rfl h
  · rfl

/-- C5: a CSR is recognized as a renewal exactly when the request parses as a
PEM CERTIFICATE REQUEST block holding a certificate request, the deduplicated
subject organizations minus the legacy organization are exactly
open-cluster-management:<clusterName> for the cluster-name label value, the CN
is prefixed with that organization, spec.username equals the CN and the signer
is kubernetes.io/kube-apiserver-client; when recognition fails the approver
performs no write for the CSR. -/
theorem C5_renewal_recognition (csr : CSR) :
    (isV1beta1SpokeClusterClientCertRenewal csr = true ↔ renewalRecognitionSpec csr) ∧
    (∀ authorize : SARSpec → SARReply,
      isV1beta1SpokeClusterClientCertRenewal csr = false →
      csrSync authorize csr =
        { sarCreated := none, approvalWrite := none, errored := false }) := by
  constructor
  · constructor
    · intro h
      unfold isV1beta1SpokeClusterClientCertRenewal at h
      split at h
      · exact absurd h (by simp)
      case h_2 clusterName hl =>
        split at h
        · exact absurd h (by simp)
        case isFalse hsig =>
          split at h
          · exact absurd h (by simp)
          case h_2 blockType parsed hreq =>
            split at h
            · exact absurd h (by simp)
            case isFalse hbt =>
              split at h
              · exact absurd h (by simp)
              case h_2 leftover subj =>
                split at h
                · exact absurd h (by simp)
                case isFalse hlen =>
                  split at h
                  · exact absurd h (by simp)
                  case isFalse hcont =>
                    split at h
                    · exact absurd h (by simp)
                    case isFalse hpre =>
                      replace hsig := not_bnot_true hsig
                      replace hbt := not_bnot_true hbt
                      replace hlen := not_bnot_true hlen
                      replace hcont := not_bnot_true hcont
                      replace hpre := not_bnot_true hpre
                      refine ⟨clusterName, subj, hl, ?_, ?_, ?_, ?_, ?_⟩
                      · rw [hreq]
                        have : blockType = "CERTIFICATE REQUEST" := by simpa using hbt
                        rw [this]
                      · have h1 : (requestingOrgsOf subj).length = 1 := by simpa using hlen
                        have h2 : (subjectOrgStart ++ clusterName) ∈ requestingOrgsOf subj := by
                          simpa using hcont
                        rcases List.length_eq_one.mp h1 with ⟨a, ha⟩
                        rw [ha] at h2 ⊢
                        rw [List.mem_singleton.mp h2]
                      · exact hpre
                      · simpa using h
                      · simpa using hsig
    · rintro ⟨clusterName, subj, hl, hreq, horgs, hpre, huser, hsig⟩
      unfold isV1beta1SpokeClusterClientCertRenewal
      rw [hl, hreq, hsig]
      simp [horgs, hpre, huser]
  · intro authorize hnot
    by_cases ht : isV1beta1CSRInTerminalState csr.conditions = true
    · simp [csrSync, ht]
    · simp [csrSync, ht, hnot]

/-- C5 witness: a concrete well-formed renewal CSR is recognized by the source
function and satisfies the specification predicate. -/
theorem C5_renewal_recognition_witness :
    isV1beta1SpokeClusterClientCertRenewal renewalCSR = true ∧
    renewalRecognitionSpec renewalCSR := by
  have h := C5_renewal_recognition renewalCSR
  exact ⟨by decide, h.1.mp (by decide)⟩

/-- C6: every auto approval is preceded by a SubjectAccessReview with
verb=renew, resource=managedclusters, subresource=clientcertificates and
group=register.open-cluster-management.io for the requesting user, and that
review allowed; a denied review leaves the CSR status unwritten and is not an
error; a CSR holding an Approved, Denied or Failed condition is never touched. -/
theorem C6_sar_gated_approval (authorize : SARSpec → SARReply) (csr : CSR) :
    (∀ conds, (csrSync authorize csr).approvalWrite = some conds →
      (csrSync authorize csr).sarCreated = some (renewClientCertSAR csr) ∧
      (renewClientCertSAR csr).verb = "renew" ∧
      (renewClientCertSAR csr).resource = "managedclusters" ∧
      (renewClientCertSAR csr).subresource = "clientcertificates" ∧
      (renewClientCertSAR csr).group = "register.open-cluster-management.io" ∧
      (renewClientCertSAR csr).user = csr.spec.username ∧
      authorize (renewClientCertSAR csr) = SARReply.allowed) ∧
    (authorize (renewClientCertSAR csr) = SARReply.denied →
      (csrSync authorize csr).approvalWrite = none ∧
      (csrSync authorize csr).errored = false) ∧
    (isV1beta1CSRInTerminalState csr.conditions = true →
      csrSync authorize csr =
        { sarCreated := none, approvalWrite := none, errored := false }) := by
  by_cases ht : isV1beta1CSRInTerminalState csr.conditions = true
  · refine ⟨?_, ?_, fun _ => by simp [csrSync, ht]⟩
    · intro conds hc
      simp [csrSync, ht] at hc
    · intro _
      simp [csrSync, ht]
  · by_cases hr : isV1beta1SpokeClusterClientCertRenewal csr = true
    · rcases ha : authorize (renewClientCertSAR csr) with _ | _ | _
      · refine ⟨?_, ?_, fun hterm => absurd hterm ht⟩
        · intro conds hc
          simp [csrSync, ht, hr, ha] at hc
        · intro hd
          exact absurd hd (by simp)
      · refine ⟨?_, ?_, fun hterm => absurd hterm ht⟩
        · intro conds hc
          exact ⟨by simp [csrSync, ht, hr, ha], rfl, rfl, rfl, rfl, rfl, rfl⟩
        · intro hd
          exact absurd hd (by simp)
      · refine ⟨?_, ?_, fun hterm => absurd hterm ht⟩
        · intro conds hc
          simp [csrSync, ht, hr, ha] at hc
        · intro _
          constructor <;> simp [csrSync, ht, hr, ha]
    · have hr2 : isV1beta1SpokeClusterClientCertRenewal csr = false := Bool.eq_false_iff.mpr hr
      refine ⟨?_, ?_, fun hterm => absurd hterm ht⟩
      · intro conds hc
        simp [csrSync, ht, hr2] at hc
      · intro _
        constructor <;> simp [csrSync, ht, hr2]

/-- C6 witness: with an all-allowing authorizer and a concrete renewal CSR, the
sync approves and the recorded SAR is the renew review, which was allowed. -/
theorem C6_sar_gated_approval_witness :
    (csrSync allowAllSAR renewalCSR).sarCreated = some (renewClientCertSAR renewalCSR) ∧
    allowAllSAR (renewClientCertSAR renewalCSR) = SARReply.allowed := by
  have h := C6_sar_gated_approval allowAllSAR renewalCSR
  have h1 := h.1 (renewalCSR.conditions ++ [approvedCondition]) (by decide)
  exact ⟨h1.1, h1.2.2.2.2.2.2⟩

/-- C2 counterexample: the syncs approval does not require any cluster holding
HubAccepted=True; with an empty cluster store, a recognized renewal whose SAR
is allowed is still approved, refuting the claim as stated. -/
theorem C2_hub_accepted_counterexample :
    ¬ ((csrSync allowAllSAR renewalCSR).approvalWrite ≠ none →
       ∃ mc ∈ ([] : List ManagedCluster), mc.name = "c1" ∧ hubAcceptedTrue mc = true) := by
  intro hclaim
  rcases hclaim (by decide) with ⟨mc, hmem, _⟩
  exact absurd hmem (List.not_mem_nil mc)

/-- C2 amended: the hub approver sets the Approved condition exactly when the
pending CSR is not terminal, is recognized as a renewal from its cluster-name
label and subject, and the renew SubjectAccessReview for the requesting user is
allowed; it never reads the named cluster or its HubAccepted condition. -/
theorem C2_approval_exactly_when_renewal_and_sar (authorize : SARSpec → SARReply) (csr : CSR) :
    ((csrSync authorize csr).approvalWrite).isSome = true ↔
      (isV1beta1CSRInTerminalState csr.conditions = false ∧
       isV1beta1SpokeClusterClientCertRenewal csr = true ∧
       authorize (renewClientCertSAR csr) = SARReply.allowed) := by
  by_cases ht : isV1beta1CSRInTerminalState csr.conditions = true
  · simp [csrSync, ht]
  · by_cases hr : isV1beta1SpokeClusterClientCertRenewal csr = true
    · rcases ha : authorize (renewClientCertSAR csr) with _ | _ | _ <;>
        simp [csrSync, ht, hr, ha, Bool.eq_false_iff.mpr ht]
    · have hr2 : isV1beta1SpokeClusterClientCertRenewal csr = false := Bool.eq_false_iff.mpr hr
      simp [csrSync, ht, hr2]

/-- C2 amended witness: concrete renewal CSR, all-allowing authorizer; the
right-hand side conditions hold and the sync writes the approval. -/
theorem C2_approval_exactly_when_witness :
    isV1beta1CSRInTerminalState renewalCSR.conditions = false ∧
    isV1beta1SpokeClusterClientCertRenewal renewalCSR = true ∧
    allowAllSAR (renewClientCertSAR renewalCSR) = SARReply.allowed ∧
    ((csrSync allowAllSAR renewalCSR).approvalWrite).isSome = true := by
  have h := (C2_approval_exactly_when_renewal_and_sar allowAllSAR renewalCSR).mpr
    ⟨by decide, by decide, rfl⟩
  exact ⟨by decide, by decide, rfl, h⟩

lemma processTaintsAux_characterization (old : Option ManagedCluster) (now : Int)
    (i : Nat) (ts : List Taint) :
    processTaintsAux old now i ts =
      ((ts.filter (taintViolation old)).map Taint.key,
       (List.enumFrom i ts).filterMap
         (fun p => if taintNeedsStamp old p.2 then
             some (newTaintTimeAddedJsonPatch p.1 now) else none)) := by
  induction ts generalizing i with
  | nil => rfl
  | cons t rest ih =>
    simp only [processTaintsAux, ih (i + 1), List.enumFrom, List.filterMap_cons,
      List.filter_cons]
    rcases hf : findTaintByKey old t.key with _ | o
    · simp only [taintViolation, taintNeedsStamp, hf]
      by_cases hz : (t.timeAdded == 0) = true
      · simp [hz]
      · have hz2 : (t.timeAdded == 0) = false := Bool.eq_false_iff.mpr hz
        simp [hz2]
    · simp only [taintViolation, taintNeedsStamp, hf]
      by_cases hm : (o.value == t.value && o.effect == t.effect) = true
      · by_cases he : (o.timeAdded == t.timeAdded) = true
        · simp [hm, he]
        · have he2 : (o.timeAdded == t.timeAdded) = false := Bool.eq_false_iff.mpr he
          simp [hm, he2]
      · have hm2 : (o.value == t.value && o.effect == t.effect) = false :=
          Bool.eq_false_iff.mpr hm
        by_cases hz : (t.timeAdded == 0) = true
        · simp [hm2, hz]
        · have hz2 : (t.timeAdded == 0) = false := Bool.eq_false_iff.mpr hz
          simp [hm2, hz2]

/-- C4: on every create/update admission of a managedcluster, processTaints
allows the request and stamps exactly the new and the changed taints (replace
patches at the taint index carrying the RFC3339 UTC rendering of the server
time) when no taint violates the contract; when some taints violate it (new or
changed with timeAdded set, or unchanged with timeAdded modified), it returns a
single 400 Bad Request whose message joins the violating keys in order, with no
patch. -/
theorem C4_taint_admission (now : Int) (mc : ManagedCluster) (old : Option ManagedCluster) :
    processTaints now mc old =
      (if (mc.taints.filter (taintViolation old)).isEmpty then
        AdmissionResult.allowedPatches
          ((mc.taints.enum).filterMap
            (fun p => if taintNeedsStamp old p.2 then
                some (newTaintTimeAddedJsonPatch p.1 now) else none))
      else
        AdmissionResult.rejected 400
          ("It is not allowed to set TimeAdded of Taint \"" ++
            String.intercalate ","
              ((mc.taints.filter (taintViolation old)).map Taint.key) ++ "\".")) := by
  have hch := processTaintsAux_characterization old now 0 mc.taints
  by_cases hempty : mc.taints.isEmpty = true
  · have hnil : mc.taints = [] := by simpa using hempty
    simp [processTaints, hnil]
  · have hne : mc.taints.isEmpty = false := Bool.eq_false_iff.mpr hempty
    simp only [processTaints, hne, Bool.false_eq_true, if_false]
    rw [hch]
    by_cases hv : mc.taints.filter (taintViolation old) = []
    · simp [hv, List.enum]
    · have hm : ((mc.taints.filter (taintViolation old)).map Taint.key).isEmpty = false := by
        simp only [List.isEmpty_eq_false_iff_exists_mem]
        rcases List.exists_mem_of_ne_nil _ hv with ⟨x, hx⟩
        exact ⟨x.key, List.mem_map_of_mem Taint.key hx⟩
      have hvi : (mc.taints.filter (taintViolation old)).isEmpty = false := by
        simpa [List.isEmpty_iff] using hv
      simp [hm, hvi, List.enum]

/-- C7: for each protected label added or removed, allowUpdateLabels issues the
SubjectAccessReviews in their documented order (join for the clusterset key,
then label key:value, then label key:*), stops at the first allowed review, and
when every review for a label is denied it returns 403 with the deterministic
message naming key:value; labels whose keys lack a protected key space produce
no review at all. -/
theorem C7_label_sar_checks (auth : SARSpec → Bool) (u : UserInfo) :
    (∀ k v rest,
      allowUpdateLabels auth u ((k, v) :: rest) =
        (if (labelSARCandidates u k v).any auth then
          (takeToFirstAllowed auth (labelSARCandidates u k v) ++
            (allowUpdateLabels auth u rest).1,
           (allowUpdateLabels auth u rest).2)
        else
          (labelSARCandidates u k v,
           AdmissionResult.rejected 403 (forbiddenLabelMessage u.username k v)))) ∧
    (∀ oldLabels newLabels,
      filterRbacCheckLabels (getDiffLabels oldLabels newLabels).1 = [] →
      filterRbacCheckLabels (getDiffLabels oldLabels newLabels).2 = [] →
      validUpdateLabelPermission auth u oldLabels newLabels =
        ([], AdmissionResult.allowedPatches [])) := by
  constructor
  · intro k v rest
    by_cases hk : (k == clusterSetLabel) = true
    · by_cases h1 : auth (joinSAR u v) = true
      · simp [allowUpdateLabels, labelSARCandidates, takeToFirstAllowed, hk, h1]
      · have h1f : auth (joinSAR u v) = false := Bool.eq_false_iff.mpr h1
        by_cases h2 : auth (labelSAR u (k ++ ":" ++ v)) = true
        · simp [allowUpdateLabels, labelSARCandidates, takeToFirstAllowed, hk, h1f, h2]
        · have h2f : auth (labelSAR u (k ++ ":" ++ v)) = false := Bool.eq_false_iff.mpr h2
          by_cases h3 : auth (labelSAR u (k ++ ":*")) = true
          · simp [allowUpdateLabels, labelSARCandidates, takeToFirstAllowed, hk, h1f, h2f, h3]
          · have h3f : auth (labelSAR u (k ++ ":*")) = false := Bool.eq_false_iff.mpr h3
            simp [allowUpdateLabels, labelSARCandidates, takeToFirstAllowed, hk, h1f, h2f, h3f]
    · have hkf : (k == clusterSetLabel) = false := Bool.eq_false_iff.mpr hk
      by_cases h2 : auth (labelSAR u (k ++ ":" ++ v)) = true
      · simp [allowUpdateLabels, labelSARCandidates, takeToFirstAllowed, hkf, h2]
      · have h2f : auth (labelSAR u (k ++ ":" ++ v)) = false := Bool.eq_false_iff.mpr h2
        by_cases h3 : auth (labelSAR u (k ++ ":*")) = true
        · simp [allowUpdateLabels, labelSARCandidates, takeToFirstAllowed, hkf, h2f, h3]
        · have h3f : auth (labelSAR u (k ++ ":*")) = false := Bool.eq_false_iff.mpr h3
          simp [allowUpdateLabels, labelSARCandidates, takeToFirstAllowed, hkf, h2f, h3f]
  · intro oldLabels newLabels h1 h2
    simp [validUpdateLabelPermission, h1, h2]

/-- C7 witness: spec scenario S7 (clusterset label without permission) and an
unprotected label causing no review.  With every review denied, adding the
label clusterset=s1 yields the three reviews in order and the exact 403
message; an unprotected label passes with no review. -/
theorem C7_label_sar_checks_witness :
    allowUpdateLabels denyAllAuth webhookUser [(clusterSetLabel, "s1")] =
      (labelSARCandidates webhookUser clusterSetLabel "s1",
       AdmissionResult.rejected 403
         (forbiddenLabelMessage "u" clusterSetLabel "s1")) ∧
    forbiddenLabelMessage "u" clusterSetLabel "s1" =
      "user \"u\" cannot add/remove the label cluster.open-cluster-management.io/clusterset:s1 to/from ManagedCluster" ∧
    validUpdateLabelPermission denyAllAuth webhookUser [] [("foo", "bar")] =
      ([], AdmissionResult.allowedPatches []) := by
  have h := C7_label_sar_checks denyAllAuth webhookUser
  refine ⟨?_, by decide, h.2 [] [("foo", "bar")] (by decide) (by decide)⟩
  rw [h.1 clusterSetLabel "s1" []]
  simp [labelSARCandidates, denyAllAuth, allowUpdateLabels, webhookUser]

/-- C9: for every ManagedClusterAddOn whose status.healthCheck.mode is
Customized, one sync of the addon lease controller reads no lease and writes no
condition: the result is empty for any clock and any lease stores. -/
theorem C9_customized_addon_frame (now : Int)
    (hubLease spokeLease : String → String → Option Lease) (a : AddOn)
    (hmode : a.healthCheckMode = HealthCheckModeCustomized) :
    addOnLeaseSync now hubLease spokeLease (some a) =
      { leaseReads := [], conditionWrite := none } := by
  simp [addOnLeaseSync, hmode]

/-- C9 witness: concrete Customized addon, no leases anywhere, arbitrary
clock value zero. -/
theorem C9_customized_addon_frame_witness :
    addOnLeaseSync 0 noLeases noLeases (some customizedAddOn) =
      { leaseReads := [], conditionWrite := none } :=
  C9_customized_addon_frame 0 noLeases noLeases customizedAddOn rfl

end Registration
